import Mathlib

/-!
Verification of `requests.go`: retrying dispatch.

A shallow embedding of `requests.go`: the recursive `Retry` helper, the
`request` method of `Request` and the four verb wrappers. Effects are made
explicit: the operation handed to `Retry` is a state transformer, sleeping and
invoking are recorded in a chronological log, and the external collaborators
(`encoding/json`, `http.NewRequest`, the HTTP client) are parameters.
-/

namespace Requests

/-- A non-nil Go `error`, identified by its message; `nil` is `Option.none`. -/
abbrev Err := String

/-- A byte string; every element is meant to be below 256. -/
abbrev Bytes := List Nat

/-! Section: Machine integers -/

/-- Reduction of an integer to a 64-bit two's complement value (Go `int`, `int64`). -/
def wrap64 (x : Int) : Int := (x + 2 ^ 63) % 2 ^ 64 - 2 ^ 63

/-- Largest value of a Go `int`. -/
def maxInt : Int := 2 ^ 63 - 1

/-! Section: Retry -/

/-- What `Retry` does to the outside world, in the order it happens. -/
inductive Event where
  | call
  | sleep (d : Int)
  deriving DecidableEq, Repr

/-- State threaded through `Retry`: the state the operation `f` works on, and
the log of invocations and sleeps so far. -/
structure World (σ : Type) where
  st : σ
  log : List Event

/-- A world with an empty log. -/
def World.init {σ : Type} (s : σ) : World σ := { st := s, log := [] }

/-- Number of invocations of the operation recorded in a log. -/
def calls (log : List Event) : Nat := log.count Event.call

/-- Number of sleeps of duration `d` recorded in a log. -/
def sleeps (d : Int) (log : List Event) : Nat := log.count (Event.sleep d)

/-- All sleeps recorded in a log, whatever their duration. -/
def allSleeps (log : List Event) : Nat :=
  log.countP fun e => match e with
    | Event.sleep _ => true
    | Event.call => false

/-- The function `Retry(attempts, sleep, f)` of `requests.go`. The operation `f` is a state
transformer returning its error; `fuel` bounds the depth of the recursion, and
`none` means that the bound was reached before `Retry` returned. -/
def Retry {σ : Type} (fuel : Nat) (attempts : Int) (sleep : Int)
    (f : σ → Option Err × σ) (w : World σ) : Option (Option Err × World σ) :=
  match fuel with
  | 0 => none
  | fuel + 1 =>
    match f w.st with
    | (some err, st) =>
      let w1 : World σ := { st := st, log := w.log ++ [Event.call] }
      if attempts = 0 then
        Retry fuel attempts sleep f { w1 with log := w1.log ++ [Event.sleep sleep] }
      else
        let attempts := wrap64 (attempts - 1)
        if attempts > 0 then
          Retry fuel attempts sleep f { w1 with log := w1.log ++ [Event.sleep sleep] }
        else
          some (some err, w1)
    | (none, st) => some (none, { st := st, log := w.log ++ [Event.call] })

/-- State of the operation after `i` invocations starting from `s`. -/
def iterSt {σ : Type} (f : σ → Option Err × σ) (s : σ) : Nat → σ
  | 0 => s
  | i + 1 => iterSt f (f s).2 i

/-- Error returned by invocation number `i + 1` of `f` starting from `s`. -/
def nthErr {σ : Type} (f : σ → Option Err × σ) (s : σ) (i : Nat) : Option Err :=
  (f (iterSt f s i)).1

/-- The log of `k` failed invocations, each followed by one sleep of `d`. -/
def retryLog (d : Int) : Nat → List Event
  | 0 => []
  | k + 1 => Event.call :: Event.sleep d :: retryLog d k

/-! Section: The request method -/

/-- The kinds of `reflect.Kind`. -/
inductive Kind where
  | Invalid | Bool | Int | Int8 | Int16 | Int32 | Int64
  | Uint | Uint8 | Uint16 | Uint32 | Uint64 | Uintptr
  | Float32 | Float64 | Complex64 | Complex128
  | Array | Chan | Func | Interface | Map | Ptr | Slice | String | Struct
  | UnsafePointer
  deriving DecidableEq, Repr

/-- A value stored under a key of a map or in a field of a struct. -/
inductive Elem where
  | text (s : String)
  | number (n : Int)
  | channel
  deriving DecidableEq, Repr

/-- The dynamic value of a `body interface{}` argument: the nil interface, or
a value of one of the shapes a caller passes. A reader carries the bytes it
still has to deliver. `textReader` and `mapReader` are values of a named string
type and of a named map type that have a `Read` method: they implement
`io.Reader` and are of kind String and Map. -/
inductive GoValue where
  | nil
  | str (s : String)
  | mapping (m : List (String × Elem))
  | int (n : Int)
  | bytes (b : Bytes)
  | record (fields : List (String × Elem))
  | stringsReader (data : Bytes)
  | reader (data : Bytes)
  | textReader (s : String) (data : Bytes)
  | mapReader (m : List (String × Elem)) (data : Bytes)
  deriving DecidableEq, Repr

/-- The call `reflect.TypeOf(body)` followed by `Kind()`: the nil interface has no type,
and `none` stands for the nil `reflect.Type` on which `Kind()` panics. -/
def kindOf : GoValue → Option Kind
  | GoValue.nil => none
  | GoValue.str _ => some Kind.String
  | GoValue.mapping _ => some Kind.Map
  | GoValue.int _ => some Kind.Int
  | GoValue.bytes _ => some Kind.Slice
  | GoValue.record _ => some Kind.Struct
  | GoValue.stringsReader _ => some Kind.Ptr
  | GoValue.reader _ => some Kind.Ptr
  | GoValue.textReader _ _ => some Kind.String
  | GoValue.mapReader _ _ => some Kind.Map

/-- The type `http.Header`. -/
abbrev Header := List (String × List String)

/-- The fields of a `tls.Config` that identify it here. -/
structure TlsConfig where
  ServerName : String
  InsecureSkipVerify : Bool
  deriving DecidableEq, Repr

/-- The `Response` struct. -/
structure Response where
  Body : Bytes
  Header : Header
  StatusCode : Int
  deriving DecidableEq, Repr

/-- The `Request` struct. -/
structure Request where
  TLSConfig : Option TlsConfig
  Retry : Int
  RetryDuration : Int
  Header : Header
  Response : Response
  deriving DecidableEq, Repr

/-- The constructor `New()`. -/
def New : Request :=
  { TLSConfig := none
    Header := []
    Retry := 10
    RetryDuration := 10
    Response := { Body := [], Header := [], StatusCode := 0 } }

/-- The `*http.Request` handed to the client: `Body` is `none` when the reader
given to `http.NewRequest` is nil. -/
structure HttpRequest where
  Method : String
  URL : String
  Header : Header
  Body : Option Bytes
  deriving DecidableEq, Repr

/-- The body stream of a response: `content` is the complete body of the
response, and `failure = some (n, e)` means that reading the stream delivers
only the first `n` bytes and then fails with `e`. -/
structure BodyStream where
  content : Bytes
  failure : Option (Nat × Err)
  deriving DecidableEq, Repr

/-- The `*http.Response` a successful exchange returns. -/
structure HttpResponse where
  StatusCode : Int
  Header : Header
  Body : BodyStream
  deriving DecidableEq, Repr

/-- The function `ioutil.ReadAll`: the bytes read until end of stream or the first error,
and that error. -/
def readAll (b : BodyStream) : Bytes × Option Err :=
  match b.failure with
  | none => (b.content, none)
  | some (n, e) => (b.content.take n, some e)

/-- The collaborators of `request` outside this package. `τ` is the state of
the network behind the client. -/
structure Env (τ : Type) where
  /-- The function `json.Marshal`. -/
  jsonMarshal : GoValue → Except Err Bytes
  /-- The error of `http.NewRequest(method, url, rc)`, if it has one. -/
  newRequestErr : String → String → Option Err
  /-- One `client.Do(req)` of a client built on the given TLS configuration. -/
  roundTrip : Option TlsConfig → HttpRequest → τ → Except Err HttpResponse × τ

/-- The constant `time.Second`, in nanoseconds. -/
def second : Int := 1000000000

/-- How a call of `request` ends: a run-time panic, or a returned `error`. -/
inductive Outcome where
  | panic (msg : String)
  | ret (err : Option Err)
  deriving DecidableEq, Repr

/-- Result of lines 49-68 of `request`: the `io.Reader` `rc` the body is turned into. -/
inductive Encoded where
  | panic (msg : String)
  | fail (err : Err)
  | reader (rc : Option Bytes)
  deriving DecidableEq, Repr

/-- Lines 49-68 of `request`: the switch on `reflect.TypeOf(body).Kind()` and
the type switch in its default case. The kind is tested first, so a reader of
kind String or Map is encoded as JSON and not passed through. In the last case
of the type switch the error is built and dropped, and `rc` stays nil. -/
def payload (jsonMarshal : GoValue → Except Err Bytes) (body : GoValue) : Encoded :=
  match kindOf body with
  | none => Encoded.panic "runtime error: invalid memory address or nil pointer dereference"
  | some k =>
    if k = Kind.String ∨ k = Kind.Map then
      match jsonMarshal body with
      | Except.error err => Encoded.fail err
      | Except.ok jsonValue => Encoded.reader (some jsonValue)
    else
      match body with
      | GoValue.stringsReader data => Encoded.reader (some data)
      | GoValue.reader data => Encoded.reader (some data)
      | GoValue.textReader _ data => Encoded.reader (some data)
      | GoValue.mapReader _ data => Encoded.reader (some data)
      | _ => Encoded.reader none

/-- The variables the closure given to `Retry` works on: the network, the
requests handed to the client so far, and the captured `resp` and `err`. -/
structure Dispatch (τ : Type) where
  ts : τ
  sent : List HttpRequest
  resp : Option HttpResponse
  err : Option Err

/-- The closure `func() error { resp, err = client.Do(req); return err }`. -/
def doRequest {τ : Type} (env : Env τ) (tls : Option TlsConfig) (req : HttpRequest)
    (c : Dispatch τ) : Option Err × Dispatch τ :=
  match env.roundTrip tls req c.ts with
  | (Except.ok resp, ts) =>
    (none, { ts := ts, sent := c.sent ++ [req], resp := some resp, err := none })
  | (Except.error e, ts) =>
    (some e, { ts := ts, sent := c.sent ++ [req], resp := none, err := some e })

/-- Everything observable after a call of `request`: how it ended, the
receiver, whether `http.NewRequest` was called and the request it built, the
requests handed to the client, the log of `Retry`, and the network. -/
structure Final (τ : Type) where
  outcome : Outcome
  r : Request
  built : Bool
  req : Option HttpRequest
  sent : List HttpRequest
  log : List Event
  ts : τ

/-- The method `(r *Request) request(url, method, body)`. `none` means that the
fuel given to `Retry` ran out. -/
def request {τ : Type} (env : Env τ) (fuel : Nat) (r : Request) (url method : String)
    (body : GoValue) (ts : τ) : Option (Final τ) :=
  match payload env.jsonMarshal body with
  | Encoded.panic msg =>
    some { outcome := Outcome.panic msg, r := r, built := false, req := none,
           sent := [], log := [], ts := ts }
  | Encoded.fail err =>
    some { outcome := Outcome.ret (some err), r := r, built := false, req := none,
           sent := [], log := [], ts := ts }
  | Encoded.reader rc =>
    match env.newRequestErr method url with
    | some err =>
      some { outcome := Outcome.ret (some err), r := r, built := true, req := none,
             sent := [], log := [], ts := ts }
    | none =>
      let req : HttpRequest := { Method := method, URL := url, Header := r.Header, Body := rc }
      match Retry fuel r.Retry (wrap64 (r.RetryDuration * second))
          (doRequest env r.TLSConfig req)
          (World.init { ts := ts, sent := [], resp := none, err := none }) with
      | none => none
      | some (some err, w) =>
        some { outcome := Outcome.ret (some err), r := r, built := true, req := some req,
               sent := w.st.sent, log := w.log, ts := w.st.ts }
      | some (none, w) =>
        match w.st.resp with
        | none =>
          some { outcome :=
                   Outcome.panic "runtime error: invalid memory address or nil pointer dereference",
                 r := r, built := true, req := some req,
                 sent := w.st.sent, log := w.log, ts := w.st.ts }
        | some resp =>
          let body := (readAll resp.Body).1
          some { outcome := Outcome.ret none,
                 r := { r with Response :=
                          { Body := body, Header := resp.Header, StatusCode := resp.StatusCode } },
                 built := true, req := some req,
                 sent := w.st.sent, log := w.log, ts := w.st.ts }

/-- The method `Post`. -/
def Post {τ : Type} (env : Env τ) (fuel : Nat) (r : Request) (url : String)
    (body : GoValue) (ts : τ) : Option (Final τ) :=
  request env fuel r url "POST" body ts

/-- The method `Get`. -/
def Get {τ : Type} (env : Env τ) (fuel : Nat) (r : Request) (url : String)
    (ts : τ) : Option (Final τ) :=
  request env fuel r url "Get" (GoValue.str "") ts

/-- The method `Put`. -/
def Put {τ : Type} (env : Env τ) (fuel : Nat) (r : Request) (url : String)
    (body : GoValue) (ts : τ) : Option (Final τ) :=
  request env fuel r url "PUT" body ts

/-- The method `Delete`. -/
def Delete {τ : Type} (env : Env τ) (fuel : Nat) (r : Request) (url : String)
    (body : GoValue) (ts : τ) : Option (Final τ) :=
  request env fuel r url "DELETE" body ts

/-! Section: Stubs -/

/-- An operation that fails on every invocation, alternating between two
errors; its state counts the invocations. -/
def alwaysRefuse (s : Nat) : Option Err × Nat :=
  (some (if s % 2 = 0 then "connection refused" else "timeout"), s + 1)

/-- An operation that fails once with each of the errors still listed in its
state and succeeds from then on. -/
def scripted : List Err → Option Err × List Err
  | [] => (none, [])
  | e :: rest => (some e, rest)

/-- The results of `json.Marshal` on the bodies used in the examples: text of
plain letters and digits (also of a named string type), the empty map, and a
map holding a channel, which `encoding/json` rejects. -/
def stubMarshal : GoValue → Except Err Bytes
  | GoValue.str s => Except.ok ([34] ++ s.toList.map Char.toNat ++ [34])
  | GoValue.textReader s _ => Except.ok ([34] ++ s.toList.map Char.toNat ++ [34])
  | GoValue.mapping [] => Except.ok [123, 125]
  | GoValue.mapping ((_, Elem.channel) :: _) => Except.error "json: unsupported type: chan int"
  | _ => Except.error "json: value not covered by the stub"

/-- A network that answers the exchanges with the listed results, in order,
and refuses the connection once the list is used up. -/
def stubRoundTrip (_ : Option TlsConfig) (_ : HttpRequest) :
    List (Except Err HttpResponse) → Except Err HttpResponse × List (Except Err HttpResponse)
  | [] => (Except.error "connection refused", [])
  | x :: rest => (x, rest)

/-- The collaborators used in the examples; every method and url is accepted. -/
def stubEnv : Env (List (Except Err HttpResponse)) :=
  { jsonMarshal := stubMarshal
    newRequestErr := fun _ _ => none
    roundTrip := stubRoundTrip }

/-- A 404 response with a three-byte body that is read to the end. -/
def notFound : HttpResponse :=
  { StatusCode := 404
    Header := [("Content-Type", ["text/plain"])]
    Body := { content := [110, 111, 33], failure := none } }

/-- A 200 response whose three-byte body breaks off after one byte. -/
def truncated : HttpResponse :=
  { StatusCode := 200
    Header := []
    Body := { content := [97, 98, 99], failure := some (1, "unexpected EOF") } }

/-! Section: Retry: auxiliary lemmas -/

theorem wrap64_pred {a : Int} (h0 : 0 < a) (h1 : a ≤ maxInt) : wrap64 (a - 1) = a - 1 := by
  unfold wrap64
  unfold maxInt at h1
  have h2 : (0 : Int) ≤ a - 1 + 2 ^ 63 := by omega
  have h3 : a - 1 + 2 ^ 63 < 2 ^ 64 := by omega
  rw [Int.emod_eq_of_lt h2 h3]
  omega

theorem nthErr_succ {σ : Type} (f : σ → Option Err × σ) (s : σ) (i : Nat) :
    nthErr f s (i + 1) = nthErr f (f s).2 i := rfl

theorem iterSt_succ_right {σ : Type} (f : σ → Option Err × σ) (s : σ) (i : Nat) :
    iterSt f s (i + 1) = (f (iterSt f s i)).2 := by
  induction i generalizing s with
  | zero => rfl
  | succ i ih =>
    show iterSt f (f s).2 (i + 1) = _
    rw [ih]
    rfl

theorem calls_retryLog (d : Int) (k : Nat) : calls (retryLog d k) = k := by
  induction k with
  | zero => rfl
  | succ k ih =>
    unfold calls at ih ⊢
    simp [retryLog, List.count_cons, ih]

theorem sleeps_retryLog (d : Int) (k : Nat) : sleeps d (retryLog d k) = k := by
  induction k with
  | zero => rfl
  | succ k ih =>
    unfold sleeps at ih ⊢
    simp [retryLog, List.count_cons, ih]

theorem allSleeps_retryLog (d : Int) (k : Nat) : allSleeps (retryLog d k) = k := by
  induction k with
  | zero => rfl
  | succ k ih =>
    unfold allSleeps at ih ⊢
    simp [retryLog, List.countP_cons, ih]

/-- One failed invocation with retries left: `Retry` sleeps and recurses. -/
theorem Retry_step {σ : Type} (fuel : Nat) (a d : Int) (f : σ → Option Err × σ)
    (w : World σ) (hfail : (f w.st).1 ≠ none)
    (ha : a = 0 ∨ (1 < a ∧ a ≤ maxInt)) :
    Retry (fuel + 1) a d f w =
      Retry fuel (if a = 0 then 0 else a - 1) d f
        { st := (f w.st).2, log := w.log ++ [Event.call, Event.sleep d] } := by
  rcases hfw : f w.st with ⟨r, st⟩
  rw [hfw] at hfail
  cases r with
  | none => exact absurd rfl hfail
  | some e =>
    rcases ha with ha | ⟨ha1, ha2⟩
    · subst ha
      simp [Retry, hfw]
    · have hne : a ≠ 0 := by omega
      have hw : wrap64 (a - 1) = a - 1 := wrap64_pred (by omega) ha2
      have hpos : 0 < a - 1 := by omega
      simp [Retry, hfw, hne, hw, hpos]

/-- A run of `k` failed invocations while retries are left. -/
theorem Retry_steps {σ : Type} (d : Int) (f : σ → Option Err × σ) (k : Nat) :
    ∀ (fuel : Nat) (a : Int) (w : World σ),
      (∀ i, i < k → nthErr f w.st i ≠ none) →
      (a = 0 ∨ ((k : Int) < a ∧ a ≤ maxInt)) →
      Retry (fuel + k) a d f w =
        Retry fuel (if a = 0 then 0 else a - k) d f
          { st := iterSt f w.st k, log := w.log ++ retryLog d k } := by
  induction k with
  | zero =>
    intro fuel a w _ _
    by_cases h : a = 0 <;> simp [h, iterSt, retryLog]
  | succ k ih =>
    intro fuel a w hfail ha
    have h0 : (f w.st).1 ≠ none := hfail 0 (Nat.succ_pos k)
    have ha1 : a = 0 ∨ (1 < a ∧ a ≤ maxInt) := by
      rcases ha with ha | ⟨h1, h2⟩
      · exact Or.inl ha
      · exact Or.inr ⟨by omega, h2⟩
    have hstep := Retry_step (fuel + k) a d f w h0 ha1
    have hrest := ih fuel (if a = 0 then 0 else a - 1)
      { st := (f w.st).2, log := w.log ++ [Event.call, Event.sleep d] }
      (fun i hi => by
        have := hfail (i + 1) (Nat.succ_lt_succ hi)
        rwa [nthErr_succ] at this)
      (by
        rcases ha with ha | ⟨h1, h2⟩
        · left; simp [ha]
        · right
          have hne : a ≠ 0 := by omega
          simp only [hne, if_false]
          constructor <;> omega)
    rw [show fuel + (k + 1) = fuel + k + 1 from rfl, hstep, hrest]
    have hcount : (if (if a = 0 then (0 : Int) else a - 1) = 0 then (0 : Int)
        else (if a = 0 then (0 : Int) else a - 1) - (k : Int))
        = (if a = 0 then (0 : Int) else a - ((k + 1 : Nat) : Int)) := by
      rcases ha with ha | ⟨h1, h2⟩
      · simp [ha]
      · have hne : a ≠ 0 := by omega
        have hne1 : a - 1 ≠ 0 := by omega
        simp only [hne, if_false, hne1]
        push_cast
        omega
    rw [hcount]
    simp [iterSt, retryLog, List.append_assoc]

/-- An invocation that succeeds ends `Retry` with `nil`. -/
theorem Retry_ok {σ : Type} (fuel : Nat) (a d : Int) (f : σ → Option Err × σ)
    (w : World σ) (h : (f w.st).1 = none) :
    Retry (fuel + 1) a d f w =
      some (none, { st := (f w.st).2, log := w.log ++ [Event.call] }) := by
  rcases hfw : f w.st with ⟨r, st⟩
  rw [hfw] at h
  simp only at h
  subst h
  simp [Retry, hfw]

/-- A failed invocation with `attempts = 1` ends `Retry` with that error. -/
theorem Retry_last {σ : Type} (fuel : Nat) (d : Int) (f : σ → Option Err × σ)
    (w : World σ) (e : Err) (h : (f w.st).1 = some e) :
    Retry (fuel + 1) 1 d f w =
      some (some e, { st := (f w.st).2, log := w.log ++ [Event.call] }) := by
  rcases hfw : f w.st with ⟨r, st⟩
  rw [hfw] at h
  simp only at h
  subst h
  simp [Retry, hfw, wrap64]

/-- With `attempts = 0` an operation that always fails exhausts any fuel. -/
theorem Retry_zero_diverges {σ : Type} (d : Int) (f : σ → Option Err × σ) (fuel : Nat) :
    ∀ (w : World σ), (∀ i, nthErr f w.st i ≠ none) → Retry fuel 0 d f w = none := by
  induction fuel with
  | zero => intro w _; rfl
  | succ fuel ih =>
    intro w hfail
    rw [Retry_step fuel 0 d f w (hfail 0) (Or.inl rfl)]
    simp only [if_true]
    apply ih
    intro i
    have := hfail (i + 1)
    rwa [nthErr_succ] at this

/-- With `attempts = 0` any result of `Retry` is `nil`. -/
theorem Retry_zero_result {σ : Type} (d : Int) (f : σ → Option Err × σ) (fuel : Nat) :
    ∀ (w : World σ) (r : Option Err) (w2 : World σ),
      Retry fuel 0 d f w = some (r, w2) → r = none := by
  induction fuel with
  | zero => intro w r w2 h; simp [Retry] at h
  | succ fuel ih =>
    intro w r w2 h
    by_cases hf : (f w.st).1 = none
    · rw [Retry_ok fuel 0 d f w hf] at h
      simp only [Option.some.injEq, Prod.mk.injEq] at h
      exact h.1.symm
    · rw [Retry_step fuel 0 d f w hf (Or.inl rfl)] at h
      simp only [if_true] at h
      exact ih _ r w2 h

/-- An operation failing `k` times and then succeeding, run with retries to
spare (or with `attempts = 0`): the full result of `Retry`. -/
theorem Retry_flaky {σ : Type} (d : Int) (f : σ → Option Err × σ) (s : σ) (k : Nat)
    (a : Int) (ha : a = 0 ∨ ((k : Int) < a ∧ a ≤ maxInt))
    (hfail : ∀ i, i < k → nthErr f s i ≠ none) (hok : nthErr f s k = none)
    (fuel : Nat) (hfuel : k + 1 ≤ fuel) :
    Retry fuel a d f (World.init s) =
      some (none, { st := iterSt f s (k + 1), log := retryLog d k ++ [Event.call] }) := by
  obtain ⟨m, rfl⟩ : ∃ m, fuel = (m + 1) + k := ⟨fuel - (k + 1), by omega⟩
  rw [Retry_steps d f k (m + 1) a (World.init s) hfail ha]
  rw [Retry_ok m _ d f { st := iterSt f (World.init s).st k, log := (World.init s).log ++ retryLog d k } hok]
  simp [World.init, iterSt_succ_right]

/-- An operation that always fails, run with `attempts = n ≥ 1`: the full
result of `Retry`. -/
theorem Retry_exhaust {σ : Type} (d : Int) (f : σ → Option Err × σ) (s : σ) (n : Nat)
    (hn : 1 ≤ n) (hmax : (n : Int) ≤ maxInt) (e : Err)
    (hfail : ∀ i, i < n - 1 → nthErr f s i ≠ none) (hlast : nthErr f s (n - 1) = some e)
    (fuel : Nat) (hfuel : n ≤ fuel) :
    Retry fuel n d f (World.init s) =
      some (some e, { st := iterSt f s n, log := retryLog d (n - 1) ++ [Event.call] }) := by
  obtain ⟨m, rfl⟩ : ∃ m, fuel = (m + 1) + (n - 1) := ⟨fuel - n, by omega⟩
  have ha : (n : Int) = 0 ∨ (((n - 1 : Nat) : Int) < (n : Int) ∧ (n : Int) ≤ maxInt) :=
    Or.inr ⟨by omega, hmax⟩
  rw [Retry_steps d f (n - 1) (m + 1) n (World.init s) hfail ha]
  have hne : (n : Int) ≠ 0 := by omega
  have h1 : (n : Int) - ((n - 1 : Nat) : Int) = 1 := by omega
  simp only [hne, if_false, h1]
  rw [Retry_last m d f
    { st := iterSt f (World.init s).st (n - 1),
      log := (World.init s).log ++ retryLog d (n - 1) } e hlast]
  have hs : iterSt f s n = (f (iterSt f s (n - 1))).2 := by
    have := iterSt_succ_right f s (n - 1)
    rwa [show n - 1 + 1 = n by omega] at this
  simp [World.init, hs]

theorem calls_append_call (l : List Event) : calls (l ++ [Event.call]) = calls l + 1 := by
  simp [calls]

theorem sleeps_append_call (d : Int) (l : List Event) :
    sleeps d (l ++ [Event.call]) = sleeps d l := by
  simp [sleeps]

theorem allSleeps_append_call (l : List Event) :
    allSleeps (l ++ [Event.call]) = allSleeps l := by
  simp [allSleeps]

theorem nthErr_alwaysRefuse (s i : Nat) : nthErr alwaysRefuse s i ≠ none := by
  simp [nthErr, alwaysRefuse]

/-! Section: Retry: the claims -/

/-- C1, as amended: an operation that fails on every invocation is invoked
exactly `n` times by `Retry(n, sleep, f)` when `n ≥ 1`, after which `Retry`
returns the error of the last invocation; with `n = 0` no amount of fuel makes
`Retry` return. -/
theorem Retry_always_failing {σ : Type} (d : Int) (f : σ → Option Err × σ) (s : σ)
    (n : Nat) (hmax : (n : Int) ≤ maxInt) (hfail : ∀ i, nthErr f s i ≠ none) :
    (n = 0 → ∀ fuel, Retry fuel (n : Int) d f (World.init s) = none) ∧
    (1 ≤ n → ∀ fuel, n ≤ fuel → ∃ e w,
        Retry fuel (n : Int) d f (World.init s) = some (some e, w) ∧
        calls w.log = n ∧ nthErr f s (n - 1) = some e) := by
  constructor
  · intro hn fuel
    subst hn
    exact Retry_zero_diverges d f fuel (World.init s) hfail
  · intro hn fuel hfuel
    obtain ⟨e, he⟩ := Option.ne_none_iff_exists'.mp (hfail (n - 1))
    refine ⟨e, _, Retry_exhaust d f s n hn hmax e (fun i _ => hfail i) he fuel hfuel, ?_, he⟩
    rw [calls_append_call, calls_retryLog]
    omega

/-- C1 at a concrete input. -/
theorem Retry_always_failing_witness :
    (∀ fuel, Retry fuel ((0 : Nat) : Int) 1 alwaysRefuse (World.init 0) = none) ∧
    (∃ e w, Retry 4 ((2 : Nat) : Int) 1 alwaysRefuse (World.init 0) = some (some e, w) ∧
        calls w.log = 2 ∧ nthErr alwaysRefuse 0 (2 - 1) = some e) :=
  ⟨(Retry_always_failing 1 alwaysRefuse 0 0 (by decide) (nthErr_alwaysRefuse 0)).1 rfl,
   (Retry_always_failing 1 alwaysRefuse 0 2 (by decide) (nthErr_alwaysRefuse 0)).2
      (by decide) 4 (by decide)⟩

/-- C1 as stated fails: with `attempts = 2` an operation that always fails is
never invoked `2 + 1` times. -/
theorem Retry_two_attempts_not_three_calls :
    ¬ ∃ fuel r w, Retry fuel 2 1 alwaysRefuse (World.init 0) = some (r, w) ∧
        calls w.log = 2 + 1 := by
  rintro ⟨fuel, r, w, h, hc⟩
  by_cases hfuel : 2 ≤ fuel
  · have hrun := Retry_exhaust 1 alwaysRefuse 0 2 (by decide) (by decide) "timeout"
      (fun i _ => nthErr_alwaysRefuse 0 i) (by decide) fuel hfuel
    rw [show ((2 : Nat) : Int) = 2 from rfl] at hrun
    rw [hrun] at h
    simp only [Option.some.injEq, Prod.mk.injEq] at h
    rw [← h.2] at hc
    revert hc
    decide
  · have h01 : fuel = 0 ∨ fuel = 1 := by omega
    rcases h01 with h0 | h1
    · subst h0
      simp [Retry] at h
    · subst h1
      have hstep := Retry_step 0 2 1 alwaysRefuse (World.init 0) (nthErr_alwaysRefuse 0 0)
        (Or.inr ⟨by decide, by decide⟩)
      rw [hstep] at h
      simp [Retry] at h

/-- C2, as amended: when `f` fails on its first `k` invocations and succeeds
on invocation `k + 1`, and `n > k` or `n = 0`, `Retry(n, sleep, f)` returns nil
after exactly `k + 1` invocations and `k` sleeps of the given delay; the log
ends with the successful invocation, so `f` is not invoked after it. -/
theorem Retry_succeeds_after_failures {σ : Type} (d : Int) (f : σ → Option Err × σ)
    (s : σ) (k n : Nat) (hn : n = 0 ∨ k < n) (hmax : (n : Int) ≤ maxInt)
    (hfail : ∀ i, i < k → nthErr f s i ≠ none) (hok : nthErr f s k = none)
    (fuel : Nat) (hfuel : k + 1 ≤ fuel) :
    ∃ w, Retry fuel (n : Int) d f (World.init s) = some (none, w) ∧
      w.st = iterSt f s (k + 1) ∧ w.log = retryLog d k ++ [Event.call] ∧
      calls w.log = k + 1 ∧ sleeps d w.log = k ∧ allSleeps w.log = k := by
  have ha : (n : Int) = 0 ∨ ((k : Int) < (n : Int) ∧ (n : Int) ≤ maxInt) := by
    rcases hn with h | h
    · left; exact_mod_cast h
    · right; exact ⟨by exact_mod_cast h, hmax⟩
  refine ⟨_, Retry_flaky d f s k n ha hfail hok fuel hfuel, rfl, rfl, ?_, ?_, ?_⟩
  · rw [calls_append_call, calls_retryLog]
  · rw [sleeps_append_call, sleeps_retryLog]
  · rw [allSleeps_append_call, allSleeps_retryLog]

/-- C2 at a concrete input: two failures, three attempts. -/
theorem Retry_succeeds_after_failures_witness :
    ∃ w, Retry 3 ((3 : Nat) : Int) 10 scripted (World.init ["timeout", "timeout"])
        = some (none, w) ∧
      w.st = iterSt scripted ["timeout", "timeout"] (2 + 1) ∧
      w.log = retryLog 10 2 ++ [Event.call] ∧
      calls w.log = 2 + 1 ∧ sleeps 10 w.log = 2 ∧ allSleeps w.log = 2 :=
  Retry_succeeds_after_failures 10 scripted ["timeout", "timeout"] 2 3
    (Or.inr (by decide)) (by decide)
    (fun i hi => by
      have h : i = 0 ∨ i = 1 := by omega
      rcases h with h | h <;> subst h <;> simp [nthErr, iterSt, scripted])
    (by simp [nthErr, iterSt, scripted]) 3 (by decide)

/-- C2 as stated fails at `n = k = 1`: the operation fails once and would
succeed on its second invocation, but `Retry(1, sleep, f)` never returns nil. -/
theorem Retry_one_attempt_one_failure :
    ¬ ∃ fuel w, Retry fuel 1 10 scripted (World.init ["timeout"]) = some (none, w) := by
  rintro ⟨fuel, w, h⟩
  cases fuel with
  | zero => simp [Retry] at h
  | succ m =>
    rw [Retry_last m 10 scripted (World.init ["timeout"]) "timeout" rfl] at h
    simp at h

/-- C8: with `attempts = 0`, an operation failing `k` times and then succeeding
makes `Retry` return nil after exactly `k + 1` invocations and `k` sleeps; an
operation that always fails makes `Retry` exhaust every amount of fuel; and
whatever the operation, a result of `Retry` is never a non-nil error. -/
theorem Retry_zero_attempts {σ : Type} (d : Int) (f : σ → Option Err × σ) (s : σ) :
    (∀ k, (∀ i, i < k → nthErr f s i ≠ none) → nthErr f s k = none →
      ∀ fuel, k + 1 ≤ fuel → ∃ w, Retry fuel 0 d f (World.init s) = some (none, w) ∧
        calls w.log = k + 1 ∧ sleeps d w.log = k ∧ allSleeps w.log = k) ∧
    ((∀ i, nthErr f s i ≠ none) → ∀ fuel, Retry fuel 0 d f (World.init s) = none) ∧
    (∀ fuel r w, Retry fuel 0 d f (World.init s) = some (r, w) → r = none) := by
  refine ⟨?_, ?_, ?_⟩
  · intro k hfail hok fuel hfuel
    refine ⟨_, Retry_flaky d f s k 0 (Or.inl rfl) hfail hok fuel hfuel, ?_, ?_, ?_⟩
    · rw [calls_append_call, calls_retryLog]
    · rw [sleeps_append_call, sleeps_retryLog]
    · rw [allSleeps_append_call, allSleeps_retryLog]
  · intro hfail fuel
    exact Retry_zero_diverges d f fuel (World.init s) hfail
  · intro fuel r w h
    exact Retry_zero_result d f fuel (World.init s) r w h

/-- C8 at concrete inputs: one failure then success, and an operation that
always fails. -/
theorem Retry_zero_attempts_witness :
    (∃ w, Retry 2 0 10 scripted (World.init ["timeout"]) = some (none, w) ∧
        calls w.log = 1 + 1 ∧ sleeps 10 w.log = 1 ∧ allSleeps w.log = 1) ∧
    (∀ fuel, Retry fuel 0 10 alwaysRefuse (World.init 0) = none) :=
  ⟨(Retry_zero_attempts 10 scripted ["timeout"]).1 1
      (fun i hi => by
        have h : i = 0 := by omega
        subst h
        simp [nthErr, iterSt, scripted])
      (by simp [nthErr, iterSt, scripted]) 2 (by decide),
   (Retry_zero_attempts 10 alwaysRefuse 0).2.1 (nthErr_alwaysRefuse 0)⟩

/-- C9: with `attempts = n ≥ 1`, an operation that fails on every invocation
makes `Retry` return after exactly `n` invocations and `n - 1` sleeps, with the
error of invocation `n`; fuel below `n` is not enough. -/
theorem Retry_attempts_is_total_tries {σ : Type} (d : Int) (f : σ → Option Err × σ)
    (s : σ) (n : Nat) (hn : 1 ≤ n) (hmax : (n : Int) ≤ maxInt)
    (hfail : ∀ i, nthErr f s i ≠ none) (fuel : Nat) :
    (fuel < n → Retry fuel (n : Int) d f (World.init s) = none) ∧
    (n ≤ fuel → ∃ e w, Retry fuel (n : Int) d f (World.init s) = some (some e, w) ∧
      nthErr f s (n - 1) = some e ∧ w.st = iterSt f s n ∧
      calls w.log = n ∧ sleeps d w.log = n - 1 ∧ allSleeps w.log = n - 1) := by
  constructor
  · intro hlt
    have h := Retry_steps d f fuel 0 (n : Int) (World.init s) (fun i _ => hfail i)
      (Or.inr ⟨by exact_mod_cast hlt, hmax⟩)
    rw [Nat.zero_add] at h
    rw [h]
    rfl
  · intro hfuel
    obtain ⟨e, he⟩ := Option.ne_none_iff_exists'.mp (hfail (n - 1))
    refine ⟨e, _, Retry_exhaust d f s n hn hmax e (fun i _ => hfail i) he fuel hfuel,
      he, rfl, ?_, ?_, ?_⟩
    · rw [calls_append_call, calls_retryLog]
      omega
    · rw [sleeps_append_call, sleeps_retryLog]
    · rw [allSleeps_append_call, allSleeps_retryLog]

/-- C9 at a concrete input: three attempts. -/
theorem Retry_attempts_is_total_tries_witness :
    Retry 2 ((3 : Nat) : Int) 10 alwaysRefuse (World.init 0) = none ∧
    (∃ e w, Retry 5 ((3 : Nat) : Int) 10 alwaysRefuse (World.init 0)
        = some (some e, w) ∧
      nthErr alwaysRefuse 0 (3 - 1) = some e ∧ w.st = iterSt alwaysRefuse 0 3 ∧
      calls w.log = 3 ∧ sleeps 10 w.log = 3 - 1 ∧ allSleeps w.log = 3 - 1) :=
  ⟨(Retry_attempts_is_total_tries 10 alwaysRefuse 0 3 (by decide) (by decide)
      (nthErr_alwaysRefuse 0) 2).1 (by decide),
   (Retry_attempts_is_total_tries 10 alwaysRefuse 0 3 (by decide) (by decide)
      (nthErr_alwaysRefuse 0) 5).2 (by decide)⟩

/-! Section: request: auxiliary lemmas -/

/-- The call of `request` whose first exchange succeeds: the full result. -/
theorem request_first_try {τ : Type} (env : Env τ) (fuel : Nat) (r : Request)
    (url method : String) (body : GoValue) (ts ts2 : τ) (rc : Option Bytes)
    (resp : HttpResponse)
    (hp : payload env.jsonMarshal body = Encoded.reader rc)
    (hn : env.newRequestErr method url = none)
    (hrt : env.roundTrip r.TLSConfig
      { Method := method, URL := url, Header := r.Header, Body := rc } ts
        = (Except.ok resp, ts2)) :
    request env (fuel + 1) r url method body ts =
      some { outcome := Outcome.ret none
             r := { r with Response :=
                      { Body := (readAll resp.Body).1, Header := resp.Header,
                        StatusCode := resp.StatusCode } }
             built := true
             req := some { Method := method, URL := url, Header := r.Header, Body := rc }
             sent := [{ Method := method, URL := url, Header := r.Header, Body := rc }]
             log := [Event.call]
             ts := ts2 } := by
  have hdo : (doRequest env r.TLSConfig
      { Method := method, URL := url, Header := r.Header, Body := rc }
      (World.init ({ ts := ts, sent := [], resp := none, err := none } : Dispatch τ)).st)
      = (none, { ts := ts2,
                 sent := [{ Method := method, URL := url, Header := r.Header, Body := rc }],
                 resp := some resp, err := none }) := by
    simp [doRequest, World.init, hrt]
  have hretry := Retry_ok fuel r.Retry (wrap64 (r.RetryDuration * second))
    (doRequest env r.TLSConfig
      { Method := method, URL := url, Header := r.Header, Body := rc })
    (World.init ({ ts := ts, sent := [], resp := none, err := none } : Dispatch τ))
    (by rw [hdo])
  unfold request
  simp only [hp, hn]
  rw [hretry, hdo]
  simp [World.init]

/-- A body of a kind other than string and map that is no reader leaves `rc` nil. -/
theorem payload_unsupported (jsonMarshal : GoValue → Except Err Bytes) (body : GoValue)
    (hnil : body ≠ GoValue.nil)
    (hkind : kindOf body ≠ some Kind.String ∧ kindOf body ≠ some Kind.Map)
    (hreader : ∀ data, body ≠ GoValue.stringsReader data ∧ body ≠ GoValue.reader data) :
    payload jsonMarshal body = Encoded.reader none := by
  cases body with
  | nil => exact absurd rfl hnil
  | str s => exact absurd rfl hkind.1
  | mapping m => exact absurd rfl hkind.2
  | int n => simp [payload, kindOf]
  | bytes b => simp [payload, kindOf]
  | record fields => simp [payload, kindOf]
  | stringsReader data => exact absurd rfl (hreader data).1
  | reader data => exact absurd rfl (hreader data).2
  | textReader s data => exact absurd rfl hkind.1
  | mapReader m data => exact absurd rfl hkind.2

/-- The classification of a non-nil body does not panic. -/
theorem payload_no_panic (jsonMarshal : GoValue → Except Err Bytes) (body : GoValue)
    (hnil : body ≠ GoValue.nil) (msg : String) :
    payload jsonMarshal body ≠ Encoded.panic msg := by
  cases body with
  | nil => exact absurd rfl hnil
  | str s => cases hm : jsonMarshal (GoValue.str s) <;> simp [payload, kindOf, hm]
  | mapping m => cases hm : jsonMarshal (GoValue.mapping m) <;> simp [payload, kindOf, hm]
  | int n => simp [payload, kindOf]
  | bytes b => simp [payload, kindOf]
  | record fields => simp [payload, kindOf]
  | stringsReader data => simp [payload, kindOf]
  | reader data => simp [payload, kindOf]
  | textReader s data =>
    cases hm : jsonMarshal (GoValue.textReader s data) <;> simp [payload, kindOf, hm]
  | mapReader m data =>
    cases hm : jsonMarshal (GoValue.mapReader m data) <;> simp [payload, kindOf, hm]

/-- A body of kind String or Map that `json.Marshal` rejects is classified as
an encoding failure. -/
theorem payload_marshal_error (jsonMarshal : GoValue → Except Err Bytes) (body : GoValue)
    (e : Err) (hk : kindOf body = some Kind.String ∨ kindOf body = some Kind.Map)
    (hm : jsonMarshal body = Except.error e) :
    payload jsonMarshal body = Encoded.fail e := by
  unfold payload
  rcases hk with hk | hk <;> simp [hk, hm]

/-- A non-nil body that `json.Marshal` does not reject is turned into a reader;
for kind String or Map the reader holds the JSON text. -/
theorem payload_reader (jsonMarshal : GoValue → Except Err Bytes) (body : GoValue)
    (hnil : body ≠ GoValue.nil)
    (hok : ∀ e, (kindOf body = some Kind.String ∨ kindOf body = some Kind.Map) →
      jsonMarshal body ≠ Except.error e) :
    ∃ rc, payload jsonMarshal body = Encoded.reader rc ∧
      ∀ v, (kindOf body = some Kind.String ∨ kindOf body = some Kind.Map) →
        jsonMarshal body = Except.ok v → rc = some v := by
  have hjson : ∀ b : GoValue, (kindOf b = some Kind.String ∨ kindOf b = some Kind.Map) →
      (∀ e, jsonMarshal b ≠ Except.error e) →
      ∃ rc, payload jsonMarshal b = Encoded.reader rc ∧
        ∀ v, jsonMarshal b = Except.ok v → rc = some v := by
    intro b hk hne
    cases hm : jsonMarshal b with
    | error e => exact absurd hm (hne e)
    | ok v =>
      refine ⟨some v, ?_, fun v2 hv => ?_⟩
      · unfold payload
        rcases hk with hk | hk <;> simp [hk, hm]
      · rw [Except.ok.inj hv]
  have hother : ∀ b : GoValue, ¬ (kindOf b = some Kind.String ∨ kindOf b = some Kind.Map) →
      (∃ rc, payload jsonMarshal b = Encoded.reader rc) →
      ∃ rc, payload jsonMarshal b = Encoded.reader rc ∧
        ∀ v, (kindOf b = some Kind.String ∨ kindOf b = some Kind.Map) →
          jsonMarshal b = Except.ok v → rc = some v := by
    rintro b hk ⟨rc, hp⟩
    exact ⟨rc, hp, fun v hk2 _ => absurd hk2 hk⟩
  have hwrap : ∀ b : GoValue, (hk : kindOf b = some Kind.String ∨ kindOf b = some Kind.Map) →
      (∀ e, (kindOf b = some Kind.String ∨ kindOf b = some Kind.Map) →
        jsonMarshal b ≠ Except.error e) →
      ∃ rc, payload jsonMarshal b = Encoded.reader rc ∧
        ∀ v, (kindOf b = some Kind.String ∨ kindOf b = some Kind.Map) →
          jsonMarshal b = Except.ok v → rc = some v := by
    intro b hk hne
    obtain ⟨rc, hp, hv⟩ := hjson b hk (fun e => hne e hk)
    exact ⟨rc, hp, fun v _ h => hv v h⟩
  cases body with
  | nil => exact absurd rfl hnil
  | str s => exact hwrap _ (Or.inl rfl) hok
  | mapping m => exact hwrap _ (Or.inr rfl) hok
  | int n => exact hother _ (by simp [kindOf]) ⟨none, by simp [payload, kindOf]⟩
  | bytes b => exact hother _ (by simp [kindOf]) ⟨none, by simp [payload, kindOf]⟩
  | record fields => exact hother _ (by simp [kindOf]) ⟨none, by simp [payload, kindOf]⟩
  | stringsReader data =>
    exact hother _ (by simp [kindOf]) ⟨some data, by simp [payload, kindOf]⟩
  | reader data => exact hother _ (by simp [kindOf]) ⟨some data, by simp [payload, kindOf]⟩
  | textReader s data => exact hwrap _ (Or.inl rfl) hok
  | mapReader m data => exact hwrap _ (Or.inr rfl) hok

/-- An error of `http.NewRequest` is returned by `request`, whatever the fuel. -/
theorem request_newRequest_error {τ : Type} (env : Env τ) (fuel : Nat) (r : Request)
    (url method : String) (body : GoValue) (ts : τ) (rc : Option Bytes) (e : Err)
    (hp : payload env.jsonMarshal body = Encoded.reader rc)
    (hn : env.newRequestErr method url = some e) :
    request env fuel r url method body ts =
      some { outcome := Outcome.ret (some e), r := r, built := true, req := none,
             sent := [], log := [], ts := ts } := by
  unfold request
  simp only [hp, hn]

/-- Once the request is built, `request` fails to return only when `Retry` on
that request does, and every result carries the built request. -/
theorem request_reaches_retry {τ : Type} (env : Env τ) (fuel : Nat) (r : Request)
    (url method : String) (body : GoValue) (ts : τ) (rc : Option Bytes)
    (hp : payload env.jsonMarshal body = Encoded.reader rc)
    (hn : env.newRequestErr method url = none) :
    (Retry fuel r.Retry (wrap64 (r.RetryDuration * second))
        (doRequest env r.TLSConfig
          { Method := method, URL := url, Header := r.Header, Body := rc })
        (World.init { ts := ts, sent := [], resp := none, err := none }) = none ∧
      request env fuel r url method body ts = none) ∨
    (∃ fin, request env fuel r url method body ts = some fin ∧
      fin.built = true ∧
      fin.req = some { Method := method, URL := url, Header := r.Header, Body := rc }) := by
  unfold request
  simp only [hp, hn]
  rcases hret : Retry fuel r.Retry (wrap64 (r.RetryDuration * second))
      (doRequest env r.TLSConfig
        { Method := method, URL := url, Header := r.Header, Body := rc })
      (World.init { ts := ts, sent := [], resp := none, err := none }) with _ | ⟨res, w⟩
  · exact Or.inl ⟨rfl, rfl⟩
  · right
    cases res with
    | some e => exact ⟨_, rfl, rfl, rfl⟩
    | none =>
      cases hresp : w.st.resp with
      | none => simp only [hresp]; exact ⟨_, rfl, rfl, rfl⟩
      | some resp => simp only [hresp]; exact ⟨_, rfl, rfl, rfl⟩

/-- A body that `json.Marshal` rejects makes `request` return that error
before `http.NewRequest`. -/
theorem request_marshal_error {τ : Type} (env : Env τ) (fuel : Nat) (r : Request)
    (url method : String) (body : GoValue) (ts : τ) (e : Err)
    (hk : kindOf body = some Kind.String ∨ kindOf body = some Kind.Map)
    (hm : env.jsonMarshal body = Except.error e) :
    request env fuel r url method body ts =
      some { outcome := Outcome.ret (some e), r := r, built := false, req := none,
             sent := [], log := [], ts := ts } := by
  have hp := payload_marshal_error env.jsonMarshal body e hk hm
  unfold request
  simp only [hp]

/-! Section: request and the verbs: the claims -/

/-- C3, the code at bodies of an unsupported shape: a non-nil body that is
neither string, map nor reader leaves the reader nil, the error built for it is
dropped, and `Post`, `Put` and `Delete` hand a request without body to the
client; when that exchange succeeds they return nil. -/
theorem verbs_send_unsupported_body {τ : Type} (env : Env τ) (fuel : Nat) (r : Request)
    (url : String) (body : GoValue) (ts ts2 : τ) (resp : HttpResponse)
    (hnil : body ≠ GoValue.nil)
    (hkind : kindOf body ≠ some Kind.String ∧ kindOf body ≠ some Kind.Map)
    (hreader : ∀ data, body ≠ GoValue.stringsReader data ∧ body ≠ GoValue.reader data)
    (hn : ∀ method, env.newRequestErr method url = none)
    (hrt : ∀ method, env.roundTrip r.TLSConfig
      { Method := method, URL := url, Header := r.Header, Body := none } ts
        = (Except.ok resp, ts2))
    (hfuel : 1 ≤ fuel) :
    (∃ fin, Post env fuel r url body ts = some fin ∧ fin.outcome = Outcome.ret none ∧
      fin.sent = [{ Method := "POST", URL := url, Header := r.Header, Body := none }]) ∧
    (∃ fin, Put env fuel r url body ts = some fin ∧ fin.outcome = Outcome.ret none ∧
      fin.sent = [{ Method := "PUT", URL := url, Header := r.Header, Body := none }]) ∧
    (∃ fin, Delete env fuel r url body ts = some fin ∧ fin.outcome = Outcome.ret none ∧
      fin.sent = [{ Method := "DELETE", URL := url, Header := r.Header, Body := none }]) := by
  obtain ⟨m, rfl⟩ : ∃ m, fuel = m + 1 := ⟨fuel - 1, by omega⟩
  have hp := payload_unsupported env.jsonMarshal body hnil hkind hreader
  exact ⟨⟨_, request_first_try env m r url "POST" body ts ts2 none resp hp (hn _) (hrt _),
            rfl, rfl⟩,
         ⟨_, request_first_try env m r url "PUT" body ts ts2 none resp hp (hn _) (hrt _),
            rfl, rfl⟩,
         ⟨_, request_first_try env m r url "DELETE" body ts ts2 none resp hp (hn _) (hrt _),
            rfl, rfl⟩⟩

/-- C3 at a concrete input: the body `42`. -/
theorem verbs_send_unsupported_body_witness :
    (∃ fin, Post stubEnv 3 New "http://h/x" (GoValue.int 42) [Except.ok notFound] = some fin ∧
      fin.outcome = Outcome.ret none ∧
      fin.sent = [{ Method := "POST", URL := "http://h/x", Header := New.Header,
                    Body := none }]) ∧
    (∃ fin, Put stubEnv 3 New "http://h/x" (GoValue.int 42) [Except.ok notFound] = some fin ∧
      fin.outcome = Outcome.ret none ∧
      fin.sent = [{ Method := "PUT", URL := "http://h/x", Header := New.Header,
                    Body := none }]) ∧
    (∃ fin, Delete stubEnv 3 New "http://h/x" (GoValue.int 42) [Except.ok notFound]
        = some fin ∧
      fin.outcome = Outcome.ret none ∧
      fin.sent = [{ Method := "DELETE", URL := "http://h/x", Header := New.Header,
                    Body := none }]) :=
  verbs_send_unsupported_body stubEnv 3 New "http://h/x" (GoValue.int 42)
    [Except.ok notFound] [] notFound (by decide) (by decide)
    (fun _ => ⟨by simp, by simp⟩) (fun _ => rfl) (fun _ => rfl) (by decide)

/-- C4, the code when reading the response body fails: after an exchange that
succeeded on the first attempt, a read error `e` after `n` bytes is dropped;
`request` returns nil, not `e`, keeps the `n` bytes read as `Response.Body`,
and has invoked the client once. -/
theorem request_drops_read_error {τ : Type} (env : Env τ) (fuel : Nat) (r : Request)
    (url method : String) (body : GoValue) (ts ts2 : τ) (rc : Option Bytes)
    (resp : HttpResponse) (n : Nat) (e : Err)
    (hp : payload env.jsonMarshal body = Encoded.reader rc)
    (hn : env.newRequestErr method url = none)
    (hrt : env.roundTrip r.TLSConfig
      { Method := method, URL := url, Header := r.Header, Body := rc } ts
        = (Except.ok resp, ts2))
    (hread : resp.Body.failure = some (n, e))
    (hfuel : 1 ≤ fuel) :
    ∃ fin, request env fuel r url method body ts = some fin ∧
      fin.outcome = Outcome.ret none ∧ fin.outcome ≠ Outcome.ret (some e) ∧
      fin.r.Response.Body = resp.Body.content.take n ∧
      fin.sent.length = 1 ∧ calls fin.log = 1 := by
  obtain ⟨m, rfl⟩ : ∃ m, fuel = m + 1 := ⟨fuel - 1, by omega⟩
  refine ⟨_, request_first_try env m r url method body ts ts2 rc resp hp hn hrt,
    rfl, by simp, ?_, rfl, rfl⟩
  simp [readAll, hread]

/-- C4 at a concrete input: a body that breaks off after one byte. -/
theorem request_drops_read_error_witness :
    ∃ fin, request stubEnv 3 New "http://h/x" "POST" (GoValue.str "ab")
        [Except.ok truncated] = some fin ∧
      fin.outcome = Outcome.ret none ∧ fin.outcome ≠ Outcome.ret (some "unexpected EOF") ∧
      fin.r.Response.Body = truncated.Body.content.take 1 ∧
      fin.sent.length = 1 ∧ calls fin.log = 1 :=
  request_drops_read_error stubEnv 3 New "http://h/x" "POST" (GoValue.str "ab")
    [Except.ok truncated] [] (some [34, 97, 98, 34]) truncated 1 "unexpected EOF"
    rfl rfl rfl rfl (by decide)

/-- C5, as amended: when the first exchange returns a response without a
transport error and the body of that response is read to its end without a read
error, `request` invokes the client exactly once, returns nil, and leaves in
`Response` the status code, the headers and the complete body of that response,
whatever the status code. -/
theorem request_captures_first_response {τ : Type} (env : Env τ) (fuel : Nat)
    (r : Request) (url method : String) (body : GoValue) (ts ts2 : τ)
    (rc : Option Bytes) (resp : HttpResponse)
    (hp : payload env.jsonMarshal body = Encoded.reader rc)
    (hn : env.newRequestErr method url = none)
    (hrt : env.roundTrip r.TLSConfig
      { Method := method, URL := url, Header := r.Header, Body := rc } ts
        = (Except.ok resp, ts2))
    (hread : resp.Body.failure = none)
    (hfuel : 1 ≤ fuel) :
    ∃ fin, request env fuel r url method body ts = some fin ∧
      fin.outcome = Outcome.ret none ∧
      fin.sent = [{ Method := method, URL := url, Header := r.Header, Body := rc }] ∧
      calls fin.log = 1 ∧ allSleeps fin.log = 0 ∧
      fin.r.Response.StatusCode = resp.StatusCode ∧
      fin.r.Response.Header = resp.Header ∧
      fin.r.Response.Body = resp.Body.content := by
  obtain ⟨m, rfl⟩ : ∃ m, fuel = m + 1 := ⟨fuel - 1, by omega⟩
  refine ⟨_, request_first_try env m r url method body ts ts2 rc resp hp hn hrt,
    rfl, rfl, rfl, rfl, rfl, rfl, ?_⟩
  simp [readAll, hread]

/-- C5 at a concrete input: a 404 response. -/
theorem request_captures_first_response_witness :
    ∃ fin, request stubEnv 3 New "http://h/x" "POST" (GoValue.str "ab")
        [Except.ok notFound] = some fin ∧
      fin.outcome = Outcome.ret none ∧
      fin.sent = [{ Method := "POST", URL := "http://h/x", Header := New.Header,
                    Body := some [34, 97, 98, 34] }] ∧
      calls fin.log = 1 ∧ allSleeps fin.log = 0 ∧
      fin.r.Response.StatusCode = notFound.StatusCode ∧
      fin.r.Response.Header = notFound.Header ∧
      fin.r.Response.Body = notFound.Body.content :=
  request_captures_first_response stubEnv 3 New "http://h/x" "POST" (GoValue.str "ab")
    [Except.ok notFound] [] (some [34, 97, 98, 34]) notFound rfl rfl rfl rfl (by decide)

/-- C5 as stated fails: the first exchange returns a response without a
transport error, `request` returns nil after one invocation, and `Response.Body`
is not the complete body of that response. -/
theorem request_truncated_body :
    stubEnv.roundTrip New.TLSConfig
        { Method := "POST", URL := "http://h/x", Header := New.Header,
          Body := some [34, 97, 98, 34] } [Except.ok truncated]
      = (Except.ok truncated, []) ∧
    ∃ fin, request stubEnv 3 New "http://h/x" "POST" (GoValue.str "ab")
        [Except.ok truncated] = some fin ∧
      fin.outcome = Outcome.ret none ∧ fin.sent.length = 1 ∧
      fin.r.Response.Body = [97] ∧
      fin.r.Response.Body ≠ truncated.Body.content :=
  ⟨rfl, _, rfl, rfl, rfl, rfl, by decide⟩

/-- C6, the code at `Get`: the body handed to `request` is the empty string,
which `json.Marshal` encodes as the two bytes of a pair of double quotes, so the
request that reaches the client carries a body of two bytes, not an empty one. -/
theorem Get_sends_quoted_empty_string {τ : Type} (env : Env τ) (fuel : Nat) (r : Request)
    (url : String) (ts ts2 : τ) (resp : HttpResponse)
    (hm : env.jsonMarshal (GoValue.str "") = Except.ok [34, 34])
    (hn : env.newRequestErr "Get" url = none)
    (hrt : env.roundTrip r.TLSConfig
      { Method := "Get", URL := url, Header := r.Header, Body := some [34, 34] } ts
        = (Except.ok resp, ts2))
    (hfuel : 1 ≤ fuel) :
    ∃ fin, Get env fuel r url ts = some fin ∧
      fin.sent.map (fun q => q.Body) = [some [34, 34]] ∧
      fin.sent.map (fun q => q.Body.map List.length) = [some 2] := by
  obtain ⟨m, rfl⟩ : ∃ m, fuel = m + 1 := ⟨fuel - 1, by omega⟩
  have hp : payload env.jsonMarshal (GoValue.str "") = Encoded.reader (some [34, 34]) := by
    simp [payload, kindOf, hm]
  exact ⟨_, request_first_try env m r url "Get" (GoValue.str "") ts ts2 _ resp hp hn hrt,
    rfl, rfl⟩

/-- C6 at a concrete input. -/
theorem Get_sends_quoted_empty_string_witness :
    ∃ fin, Get stubEnv 3 New "http://h/x" [Except.ok notFound] = some fin ∧
      fin.sent.map (fun q => q.Body) = [some [34, 34]] ∧
      fin.sent.map (fun q => q.Body.map List.length) = [some 2] :=
  Get_sends_quoted_empty_string stubEnv 3 New "http://h/x" [Except.ok notFound] []
    notFound rfl rfl rfl (by decide)

/-- C7, the code at the four verbs: `Post`, `Put` and `Delete` forward url and
body to `request` with the methods POST, PUT and DELETE, while `Get` forwards
the method spelled `Get`, which is the method of the request that reaches the
client. -/
theorem Get_forwards_mixed_case_method {τ : Type} (env : Env τ) (fuel : Nat)
    (r : Request) (url : String) (ts ts2 : τ) (rc : Option Bytes) (resp : HttpResponse)
    (hp : payload env.jsonMarshal (GoValue.str "") = Encoded.reader rc)
    (hn : env.newRequestErr "Get" url = none)
    (hrt : env.roundTrip r.TLSConfig
      { Method := "Get", URL := url, Header := r.Header, Body := rc } ts
        = (Except.ok resp, ts2))
    (hfuel : 1 ≤ fuel) :
    (∀ body, Post env fuel r url body ts = request env fuel r url "POST" body ts) ∧
    (∀ body, Put env fuel r url body ts = request env fuel r url "PUT" body ts) ∧
    (∀ body, Delete env fuel r url body ts = request env fuel r url "DELETE" body ts) ∧
    (∃ fin, Get env fuel r url ts = some fin ∧
      fin.sent.map (fun q => (q.Method, q.URL)) = [("Get", url)] ∧
      fin.sent.map (fun q => q.Method) ≠ ["GET"]) := by
  obtain ⟨m, rfl⟩ : ∃ m, fuel = m + 1 := ⟨fuel - 1, by omega⟩
  refine ⟨fun _ => rfl, fun _ => rfl, fun _ => rfl,
    _, request_first_try env m r url "Get" (GoValue.str "") ts ts2 rc resp hp hn hrt,
    rfl, ?_⟩
  simp

/-- C7 at a concrete input. -/
theorem Get_forwards_mixed_case_method_witness :
    (∀ body, Post stubEnv 3 New "http://h/x" body [Except.ok notFound]
      = request stubEnv 3 New "http://h/x" "POST" body [Except.ok notFound]) ∧
    (∀ body, Put stubEnv 3 New "http://h/x" body [Except.ok notFound]
      = request stubEnv 3 New "http://h/x" "PUT" body [Except.ok notFound]) ∧
    (∀ body, Delete stubEnv 3 New "http://h/x" body [Except.ok notFound]
      = request stubEnv 3 New "http://h/x" "DELETE" body [Except.ok notFound]) ∧
    (∃ fin, Get stubEnv 3 New "http://h/x" [Except.ok notFound] = some fin ∧
      fin.sent.map (fun q => (q.Method, q.URL)) = [("Get", "http://h/x")] ∧
      fin.sent.map (fun q => q.Method) ≠ ["GET"]) :=
  Get_forwards_mixed_case_method stubEnv 3 New "http://h/x" [Except.ok notFound] []
    (some [34, 34]) notFound rfl rfl rfl (by decide)

/-- C10, as amended: for a non-nil body the classification never panics. A
body of kind String or Map that `json.Marshal` rejects makes `request` return
that error before `http.NewRequest`, with no invocation of the client. Every
other non-nil body is turned into a reader `rc` (the JSON text for kind String
or Map) and `request` reaches `http.NewRequest`: it returns the error of
`http.NewRequest`, or it runs `Retry` on the request built from `rc`, and then
either `Retry` has not returned within the fuel or `request` returns a result
that carries the built request. For the nil body `request` panics in
`reflect.TypeOf(body).Kind()`, before `http.NewRequest` and with no invocation
of the client. -/
theorem request_classification {τ : Type} (env : Env τ) (fuel : Nat) (r : Request)
    (url method : String) (ts : τ) :
    (∀ body, body ≠ GoValue.nil →
      (∀ msg, payload env.jsonMarshal body ≠ Encoded.panic msg) ∧
      (∀ e, (kindOf body = some Kind.String ∨ kindOf body = some Kind.Map) →
        env.jsonMarshal body = Except.error e →
        payload env.jsonMarshal body = Encoded.fail e ∧
        request env fuel r url method body ts =
          some { outcome := Outcome.ret (some e), r := r, built := false, req := none,
                 sent := [], log := [], ts := ts }) ∧
      ((∀ e, (kindOf body = some Kind.String ∨ kindOf body = some Kind.Map) →
          env.jsonMarshal body ≠ Except.error e) →
        ∃ rc, payload env.jsonMarshal body = Encoded.reader rc ∧
          (∀ v, (kindOf body = some Kind.String ∨ kindOf body = some Kind.Map) →
            env.jsonMarshal body = Except.ok v → rc = some v) ∧
          (∀ e, env.newRequestErr method url = some e →
            request env fuel r url method body ts =
              some { outcome := Outcome.ret (some e), r := r, built := true, req := none,
                     sent := [], log := [], ts := ts }) ∧
          (env.newRequestErr method url = none →
            (Retry fuel r.Retry (wrap64 (r.RetryDuration * second))
                (doRequest env r.TLSConfig
                  { Method := method, URL := url, Header := r.Header, Body := rc })
                (World.init { ts := ts, sent := [], resp := none, err := none }) = none ∧
              request env fuel r url method body ts = none) ∨
            (∃ fin, request env fuel r url method body ts = some fin ∧
              fin.built = true ∧
              fin.req = some { Method := method, URL := url, Header := r.Header,
                               Body := rc })))) ∧
    request env fuel r url method GoValue.nil ts =
      some { outcome :=
               Outcome.panic "runtime error: invalid memory address or nil pointer dereference",
             r := r, built := false, req := none, sent := [], log := [], ts := ts } := by
  refine ⟨?_, rfl⟩
  intro body hnil
  refine ⟨payload_no_panic env.jsonMarshal body hnil, ?_, ?_⟩
  · intro e hk hm
    exact ⟨payload_marshal_error env.jsonMarshal body e hk hm,
      request_marshal_error env fuel r url method body ts e hk hm⟩
  · intro hok
    obtain ⟨rc, hp, hrc⟩ := payload_reader env.jsonMarshal body hnil hok
    exact ⟨rc, hp, hrc,
      fun e hn => request_newRequest_error env fuel r url method body ts rc e hp hn,
      fun hn => request_reaches_retry env fuel r url method body ts rc hp hn⟩

/-- C10 at concrete inputs: a byte slice, a map holding a channel, and the nil
body. -/
theorem request_classification_witness :
    (∃ fin, request stubEnv 3 New "http://h/x" "PUT" (GoValue.bytes [1, 2])
        [Except.ok notFound] = some fin ∧
      fin.built = true ∧
      fin.req = some { Method := "PUT", URL := "http://h/x", Header := New.Header,
                       Body := none }) ∧
    (payload stubEnv.jsonMarshal (GoValue.mapping [("c", Elem.channel)])
        = Encoded.fail "json: unsupported type: chan int" ∧
      request stubEnv 3 New "http://h/x" "PUT" (GoValue.mapping [("c", Elem.channel)])
          [Except.ok notFound] =
        some { outcome := Outcome.ret (some "json: unsupported type: chan int"), r := New,
               built := false, req := none, sent := [], log := [],
               ts := [Except.ok notFound] }) ∧
    request stubEnv 3 New "http://h/x" "PUT" GoValue.nil [Except.ok notFound] =
      some { outcome :=
               Outcome.panic "runtime error: invalid memory address or nil pointer dereference",
             r := New, built := false, req := none, sent := [], log := [],
             ts := [Except.ok notFound] } := by
  have hall := request_classification stubEnv 3 New "http://h/x" "PUT" [Except.ok notFound]
  refine ⟨?_, ?_, hall.2⟩
  · obtain ⟨rc, hp, _, _, hreach⟩ :=
      (hall.1 (GoValue.bytes [1, 2]) (by decide)).2.2 (fun e hk => by simp [kindOf] at hk)
    have hrc : rc = none := by
      have h2 : payload stubEnv.jsonMarshal (GoValue.bytes [1, 2]) = Encoded.reader none := rfl
      rw [h2] at hp
      exact (Encoded.reader.inj hp).symm
    subst hrc
    rcases hreach rfl with ⟨_, hnone⟩ | hsome
    · have hsome : (request stubEnv 3 New "http://h/x" "PUT" (GoValue.bytes [1, 2])
          [Except.ok notFound]).isSome = true := rfl
      rw [hnone] at hsome
      exact absurd hsome (by decide)
    · exact hsome
  · exact (hall.1 (GoValue.mapping [("c", Elem.channel)]) (by decide)).2.1
      "json: unsupported type: chan int" (Or.inr rfl) rfl

/-- C10 as stated fails: a map holding a channel is a non-nil body, and
`request` returns the error of `json.Marshal` without reaching
`http.NewRequest`. -/
theorem request_map_with_channel :
    GoValue.mapping [("c", Elem.channel)] ≠ GoValue.nil ∧
    ∃ fin, request stubEnv 3 New "http://h/x" "POST"
        (GoValue.mapping [("c", Elem.channel)]) [Except.ok notFound] = some fin ∧
      fin.built = false ∧
      fin.outcome = Outcome.ret (some "json: unsupported type: chan int") ∧
      fin.sent = [] :=
  ⟨by decide, _, rfl, rfl, rfl, rfl⟩

end Requests
